import Mathlib

/-!
Verification of the query-resolution and similarity pipeline of the
lgnd-similarity-search repository.

The checkout ships the React frontend (three variants of
frontend/src/App.jsx plus frontend/src/components/Weather.jsx and the
ChatInput component); those handlers are embedded directly from the
JavaScript source.  The FastAPI backend (bounded cache, geocoder
adapter, chip locator, similarity engine, query orchestrator, warmup
runner — backend/mcp_server per the README) is described by the spec
but its source is not part of this checkout, so each of those
components is modelled from the spec text, as marked on its definition.
-/

namespace LgndSim

/-! JavaScript value and string model -/

/-- A JavaScript runtime value as far as the frontend inspects it: a
genuine (non-NaN) number, the number NaN, or a value of any other
runtime type.  A non-number value carries whether coercing it with
Number would yield NaN, which is what the global isNaN reports. -/
inductive JSVal where
  | num (x : ℚ)
  | nan
  | other (toNumberIsNaN : Bool)
  deriving DecidableEq

/-- The test `typeof v === "number"`; NaN is of number type. -/
def typeofIsNumber : JSVal → Bool
  | .num _ => true
  | .nan => true
  | .other _ => false

/-- The JavaScript global `isNaN`, which coerces its argument with
Number before testing. -/
def jsIsNaN : JSVal → Bool
  | .num _ => false
  | .nan => true
  | .other b => b

/-- `String.prototype.trim` on a character list: drop leading and
trailing whitespace (modelled with `Char.isWhitespace`). -/
def jsTrimList (l : List Char) : List Char :=
  ((l.dropWhile Char.isWhitespace).reverse.dropWhile Char.isWhitespace).reverse

/-- `String.prototype.trim`. -/
def jsTrim (s : String) : String :=
  String.mk (jsTrimList s.data)

theorem jsTrimList_eq_nil_of_all_ws (l : List Char)
    (h : ∀ c ∈ l, c.isWhitespace) : jsTrimList l = [] := by
  unfold jsTrimList
  have hd : l.dropWhile Char.isWhitespace = [] :=
    List.dropWhile_eq_nil_iff.mpr h
  simp [hd]

theorem jsTrim_eq_empty_of_all_ws (s : String)
    (h : ∀ c ∈ s.data, c.isWhitespace) : jsTrim s = "" := by
  unfold jsTrim
  rw [jsTrimList_eq_nil_of_all_ws s.data h]

/-! First App.jsx variant (axios + "SAFETY" coercion), App.jsx:13-119 -/

namespace AppAxios

/-- One similarity result chip as this variant reads it. -/
structure Chip where
  chips_id : String
  similarity : ℚ
  deriving DecidableEq

/-- The `results` field of `res.data`: either a genuine array (the
`Array.isArray` test at App.jsx:39 succeeds) or any other value. -/
inductive ResultsField where
  | arr (xs : List Chip)
  | notArr (v : JSVal)
  deriving DecidableEq

/-- The parsed JSON body `res.data`. -/
structure RawData where
  results : ResultsField
  deriving DecidableEq

/-- The `safe` object built at App.jsx:37-40: the same payload with
`results` forced to be an array. -/
structure SafeData where
  results : List Chip
  deriving DecidableEq

/-- Outcome of the awaited `axios.get`: a resolved response carrying
`res.data`, or a rejection (network error or non-2xx status). -/
inductive HttpOutcome where
  | ok (data : RawData)
  | err
  deriving DecidableEq

/-- The component state touched by the handler. -/
structure State where
  result : Option SafeData
  loading : Bool
  error : String
  deriving DecidableEq

/-- An HTTP request issued by the handler: GET /similarity/text?q=... -/
structure Request where
  q : String
  deriving DecidableEq

/-- `handleSearch` (App.jsx:19-50) as a function of the current query,
the component state and the outcome the awaited request would produce.
Returns the state once the handler finishes together with the requests
it issued.  A blank query returns before any state update or request;
otherwise the handler sets loading/error/result, awaits the request,
stores the coerced `safe` payload on success, stores an error message
on rejection, and clears `loading` in the `finally` block. -/
def handleSearch (query : String) (st : State) (resp : HttpOutcome) :
    State × List Request :=
  if jsTrim query = "" then (st, [])
  else
    match resp with
    | .ok d =>
        let safe : SafeData :=
          { results := match d.results with
              | .arr xs => xs
              | .notArr _ => [] }
        ({ result := some safe, loading := false, error := "" },
         [{ q := query }])
    | .err =>
        ({ result := none, loading := false,
           error := "Something went wrong contacting the backend." },
         [{ q := query }])

end AppAxios

/-! Second App.jsx variant (leaflet map), App.jsx:152-311 -/

namespace AppMap

/-- One backend result as the map variant reads it: `lat` and `lon` are
arbitrary runtime values, inspected by the marker filter. -/
structure Result where
  chips_id : String
  similarity : JSVal
  lat : JSVal
  lon : JSVal
  thumbnail : Option String
  deriving DecidableEq

/-- The parsed JSON body of the fetch. -/
structure Data where
  results : List Result
  deriving DecidableEq

/-- Component state touched by `search`. -/
structure State where
  query : String
  results : List Result
  deriving DecidableEq

/-- An HTTP request issued by the handler. -/
structure Request where
  q : String
  deriving DecidableEq

/-- `search` (App.jsx:157-171).  `inputQuery` is the optional direct
argument; the handler resolves `inputQuery ?? query` first.  `resp` is
the fetch outcome, `none` standing for a rejected fetch or unparsable
body, in which case the exception escapes the handler after
`setResults([])` has already run; the final Bool records whether the
handler threw. -/
def search (inputQuery : Option String) (st : State) (resp : Option Data) :
    State × List Request × Bool :=
  let q := inputQuery.getD st.query
  if jsTrim q = "" then (st, [], false)
  else
    match resp with
    | some data => ({ st with results := data.results }, [{ q := q }], false)
    | none => ({ st with results := [] }, [{ q := q }], true)

/-- The marker filter at App.jsx:271-278: both coordinates must be of
number type and not NaN. -/
def markerFilter (r : Result) : Bool :=
  typeofIsNumber r.lat && typeofIsNumber r.lon &&
    !jsIsNaN r.lat && !jsIsNaN r.lon

/-- The results for which a leaflet Marker is rendered
(App.jsx:271-306): the filtered list. -/
def renderedMarkers (results : List Result) : List Result :=
  results.filter markerFilter

/-- The sidebar list renders every element of `results`
(App.jsx:217-250), with no filtering. -/
def sidebarItems (results : List Result) : List Result :=
  results

theorem markerFilter_eq_true_iff (r : Result) :
    markerFilter r = true ↔
      (∃ x, r.lat = JSVal.num x) ∧ (∃ y, r.lon = JSVal.num y) := by
  rcases r with ⟨i, s, lat, lon, t⟩
  cases lat <;> cases lon <;>
    simp [markerFilter, typeofIsNumber, jsIsNaN]

end AppMap

/-! Third App.jsx variant (MCP backend), App.jsx:324-417 -/

namespace AppMcp

/-- One result chip as this variant reads it. -/
structure Chip where
  chips_id : String
  similarity : ℚ
  lat : ℚ
  lon : ℚ
  deriving DecidableEq

/-- Outcome of the awaited fetch: parsed JSON on an ok status, a non-ok
status (which the handler turns into a thrown error), or a rejected
fetch. -/
inductive HttpOutcome where
  | ok (data : List Chip)
  | badStatus (status : ℕ)
  | err
  deriving DecidableEq

/-- Component state touched by the handler. -/
structure State where
  results : List Chip
  loading : Bool
  error : String
  deriving DecidableEq

/-- An HTTP request issued by the handler. -/
structure Request where
  q : String
  deriving DecidableEq

/-- `handleSearch` (App.jsx:333-360): a blank query returns before any
state update or request; a non-ok status or rejection is caught and
sets the error message (results stay cleared); a parsed body is stored
whole in `results`; `loading` is cleared in the `finally` block. -/
def handleSearch (query : String) (st : State) (resp : HttpOutcome) :
    State × List Request :=
  if jsTrim query = "" then (st, [])
  else
    match resp with
    | .ok data =>
        ({ results := data, loading := false, error := "" }, [{ q := query }])
    | .badStatus _ =>
        ({ results := [], loading := false,
           error := "Error during search. Check console for details." },
         [{ q := query }])
    | .err =>
        ({ results := [], loading := false,
           error := "Error during search. Check console for details." },
         [{ q := query }])

end AppMcp

/-! ChatInput component (second document of Weather.jsx), lines 57-64 -/

namespace ChatInput

/-- `send`: a blank message returns without calling `onSend` and
without clearing the input; otherwise `onSend(msg)` fires and the input
is cleared.  Returned as (message handed to onSend, new msg state). -/
def send (msg : String) : Option String × String :=
  if jsTrim msg = "" then (none, msg)
  else (some msg, "")

end ChatInput

/-- C9: for every query string that is empty or consists only of
whitespace, each frontend search handler (handleSearch in the axios and
MCP App variants, search in the map App variant, and send in ChatInput)
returns without issuing any HTTP request and without modifying the
loading, error, or result/results state. -/
theorem blank_query_handlers_no_effect (q : String)
    (hq : ∀ c ∈ q.data, c.isWhitespace) :
    (∀ st resp, AppAxios.handleSearch q st resp = (st, [])) ∧
    (∀ st resp, AppMap.search (some q) st resp = (st, [], false)) ∧
    (∀ st resp, st.query = q → AppMap.search none st resp = (st, [], false)) ∧
    (∀ st resp, AppMcp.handleSearch q st resp = (st, [])) ∧
    ChatInput.send q = (none, q) := by
  have ht : jsTrim q = "" := jsTrim_eq_empty_of_all_ws q hq
  refine ⟨fun st resp => ?_, fun st resp => ?_, fun st resp hst => ?_,
    fun st resp => ?_, ?_⟩
  · simp [AppAxios.handleSearch, ht]
  · simp [AppMap.search, ht]
  · simp [AppMap.search, hst, ht]
  · simp [AppMcp.handleSearch, ht]
  · simp [ChatInput.send, ht]

/-- Witness for C9 at the concrete all-whitespace query "  ". -/
theorem blank_query_handlers_no_effect_spot :
    AppAxios.handleSearch "  " ⟨none, false, ""⟩ AppAxios.HttpOutcome.err =
      (⟨none, false, ""⟩, []) ∧
    AppMap.search none ⟨"  ", []⟩ none = (⟨"  ", []⟩, [], false) ∧
    ChatInput.send "  " = (none, "  ") := by
  have h := blank_query_handlers_no_effect "  " (by decide)
  exact ⟨h.1 _ _, h.2.2.1 _ _ rfl, h.2.2.2.2⟩

/-- C10: in the map App variant, a Marker is rendered for a result if
and only if the result is in the list and both its lat and lon fields
are numbers and not NaN; every result, including those failing the
predicate, still appears in the sidebar list. -/
theorem marker_iff_numeric_coords (results : List AppMap.Result)
    (r : AppMap.Result) :
    (r ∈ AppMap.renderedMarkers results ↔
      r ∈ results ∧ (∃ x, r.lat = JSVal.num x) ∧ (∃ y, r.lon = JSVal.num y)) ∧
    (r ∈ results → r ∈ AppMap.sidebarItems results) := by
  constructor
  · rw [AppMap.renderedMarkers, List.mem_filter, AppMap.markerFilter_eq_true_iff]
  · intro h
    exact h

/-- Witness for C10: a result with numeric coordinates is rendered as a
marker and listed in the sidebar. -/
theorem marker_iff_numeric_coords_spot :
    (⟨"C1", JSVal.num 1, JSVal.num 37, JSVal.num (-122), none⟩ : AppMap.Result) ∈
      AppMap.renderedMarkers [⟨"C1", JSVal.num 1, JSVal.num 37, JSVal.num (-122), none⟩] ∧
    (⟨"C1", JSVal.num 1, JSVal.num 37, JSVal.num (-122), none⟩ : AppMap.Result) ∈
      AppMap.sidebarItems [⟨"C1", JSVal.num 1, JSVal.num 37, JSVal.num (-122), none⟩] := by
  have h := marker_iff_numeric_coords
    [⟨"C1", JSVal.num 1, JSVal.num 37, JSVal.num (-122), none⟩]
    ⟨"C1", JSVal.num 1, JSVal.num 37, JSVal.num (-122), none⟩
  exact ⟨h.1.mpr ⟨by simp, ⟨37, rfl⟩, ⟨-122, rfl⟩⟩, h.2 (by simp)⟩

/-! Query Orchestrator, modelled from the spec -/

/-- Failure kinds of the geocoding stage (spec section 4.2). -/
inductive GeoFailure where
  | notFound
  | upstreamError
  deriving DecidableEq

/-- Failure kinds of the locating stage (spec section 4.3). -/
inductive LocFailure where
  | noChipCovers
  | upstreamError
  deriving DecidableEq

/-- Failure kinds of the scoring stage (spec section 4.4). -/
inductive ScoreFailure where
  | emptyCorpus
  deriving DecidableEq

/-- The tagged failure taxonomy of spec section 7. -/
inductive Failure where
  | notFound
  | noChipCovers
  | emptyCorpus
  | upstreamError
  deriving DecidableEq

/-- Embedding of a geocoding failure into the taxonomy. -/
def GeoFailure.toFailure : GeoFailure → Failure
  | .notFound => .notFound
  | .upstreamError => .upstreamError

/-- Embedding of a locating failure into the taxonomy. -/
def LocFailure.toFailure : LocFailure → Failure
  | .noChipCovers => .noChipCovers
  | .upstreamError => .upstreamError

/-- Embedding of a scoring failure into the taxonomy. -/
def ScoreFailure.toFailure : ScoreFailure → Failure
  | .emptyCorpus => .emptyCorpus

/-- The success payload of spec section 4.5. -/
structure OrchestratorSuccess (Coord Chip Res : Type) where
  seedCoordinate : Coord
  seedChip : Chip
  results : List Res
  deriving DecidableEq

/-- Modelled from the spec: the Query Orchestrator of section 4.5
(backend/mcp_server/handlers.py, not part of this checkout).  It
sequences Geocoding, Locating and Scoring, assembles the success
payload, and forwards the first failure unchanged without retrying. -/
def orchestrate {Coord Chip Res : Type}
    (geocode : String → Except GeoFailure Coord)
    (locate : Coord → Except LocFailure Chip)
    (score : Chip → Except ScoreFailure (List Res))
    (q : String) : Except Failure (OrchestratorSuccess Coord Chip Res) :=
  match geocode q with
  | .error e => .error e.toFailure
  | .ok coord =>
    match locate coord with
    | .error e => .error e.toFailure
    | .ok chip =>
      match score chip with
      | .error e => .error e.toFailure
      | .ok results =>
        .ok { seedCoordinate := coord, seedChip := chip, results := results }

/-- C2 counterexample: the axios App variant's handleSearch converts a
malformed success payload — a body whose results field is not an array —
into a success value with an empty results list (the coercion at
App.jsx:36-42), so some component does turn a malformed payload into an
empty success. -/
theorem malformed_payload_becomes_empty_success :
    AppAxios.handleSearch "marina" ⟨none, false, ""⟩
        (AppAxios.HttpOutcome.ok ⟨AppAxios.ResultsField.notArr JSVal.nan⟩) =
      (⟨some ⟨[]⟩, false, ""⟩, [⟨"marina"⟩]) := by
  decide

/-- C2 amended: on failure at any pipeline stage the Query Orchestrator
short-circuits and returns the specific tagged failure kind, and the
frontend turns a rejected request into an error state rather than a
success value; however, the frontend handleSearch converts a success
payload whose results field is not an array into a success value with
an empty results list. -/
theorem orchestrator_short_circuit_and_frontend_coercion :
    (∀ (Coord Chip Res : Type) (g : String → Except GeoFailure Coord)
        (l : Coord → Except LocFailure Chip)
        (s : Chip → Except ScoreFailure (List Res)) (q : String)
        (e : GeoFailure), g q = .error e →
        orchestrate g l s q = .error e.toFailure) ∧
    (∀ (Coord Chip Res : Type) (g : String → Except GeoFailure Coord)
        (l : Coord → Except LocFailure Chip)
        (s : Chip → Except ScoreFailure (List Res)) (q : String)
        (coord : Coord) (e : LocFailure), g q = .ok coord →
        l coord = .error e → orchestrate g l s q = .error e.toFailure) ∧
    (∀ (Coord Chip Res : Type) (g : String → Except GeoFailure Coord)
        (l : Coord → Except LocFailure Chip)
        (s : Chip → Except ScoreFailure (List Res)) (q : String)
        (coord : Coord) (chip : Chip) (e : ScoreFailure), g q = .ok coord →
        l coord = .ok chip → s chip = .error e →
        orchestrate g l s q = .error e.toFailure) ∧
    (∀ (q : String) (st : AppAxios.State), jsTrim q ≠ "" →
        AppAxios.handleSearch q st AppAxios.HttpOutcome.err =
          ({ result := none, loading := false,
             error := "Something went wrong contacting the backend." },
           [{ q := q }])) ∧
    (∀ (q : String) (st : AppAxios.State) (v : JSVal), jsTrim q ≠ "" →
        AppAxios.handleSearch q st
            (AppAxios.HttpOutcome.ok ⟨AppAxios.ResultsField.notArr v⟩) =
          ({ result := some ⟨[]⟩, loading := false, error := "" },
           [{ q := q }])) := by
  refine ⟨?_, ?_, ?_, ?_, ?_⟩
  · intro Coord Chip Res g l s q e hg
    simp [orchestrate, hg]
  · intro Coord Chip Res g l s q coord e hg hl
    simp [orchestrate, hg, hl]
  · intro Coord Chip Res g l s q coord chip e hg hl hs
    simp [orchestrate, hg, hl, hs]
  · intro q st hq
    simp [AppAxios.handleSearch, hq]
  · intro q st v hq
    simp [AppAxios.handleSearch, hq]

/-- Witness for the amended C2, with every hypothesis discharged at
concrete inputs. -/
theorem orchestrator_short_circuit_and_frontend_coercion_spot :
    orchestrate (fun _ => Except.error GeoFailure.notFound)
        (fun _ : Unit => Except.ok ())
        (fun _ : Unit => Except.ok ([] : List Unit)) "marina" =
      Except.error Failure.notFound ∧
    orchestrate (fun _ => Except.ok ())
        (fun _ : Unit => Except.error LocFailure.noChipCovers)
        (fun _ : Unit => Except.ok ([] : List Unit)) "marina" =
      Except.error Failure.noChipCovers ∧
    orchestrate (fun _ => Except.ok ()) (fun _ : Unit => Except.ok ())
        (fun _ : Unit =>
          Except.error (α := List Unit) ScoreFailure.emptyCorpus) "marina" =
      Except.error Failure.emptyCorpus ∧
    AppAxios.handleSearch "marina" ⟨none, false, ""⟩ AppAxios.HttpOutcome.err =
      (⟨none, false, "Something went wrong contacting the backend."⟩,
       [⟨"marina"⟩]) ∧
    AppAxios.handleSearch "marina" ⟨none, false, ""⟩
        (AppAxios.HttpOutcome.ok ⟨AppAxios.ResultsField.notArr JSVal.nan⟩) =
      (⟨some ⟨[]⟩, false, ""⟩, [⟨"marina"⟩]) := by
  have h := orchestrator_short_circuit_and_frontend_coercion
  exact ⟨h.1 Unit Unit Unit _ _ _ "marina" GeoFailure.notFound rfl,
    h.2.1 Unit Unit Unit _ _ _ "marina" () LocFailure.noChipCovers rfl rfl,
    h.2.2.1 Unit Unit Unit _ _ _ "marina" () () ScoreFailure.emptyCorpus
      rfl rfl rfl,
    h.2.2.2.1 "marina" ⟨none, false, ""⟩ (by decide),
    h.2.2.2.2 "marina" ⟨none, false, ""⟩ JSVal.nan (by decide)⟩

/-! Cosine similarity, modelled from the spec -/

/-- Modelled from the spec: the dot product of two embedding vectors,
used by the Similarity Engine (backend/mcp_server, not part of this
checkout); float arithmetic is modelled over the reals. -/
def dotProduct (a b : List ℝ) : ℝ :=
  (List.zipWith (fun x y => x * y) a b).sum

/-- Modelled from the spec: the Euclidean norm of an embedding
vector. -/
noncomputable def vecNorm (a : List ℝ) : ℝ :=
  Real.sqrt (dotProduct a a)

/-- Modelled from the spec: cosine similarity of vectors a, b is
dot(a,b) / (norm a * norm b), defined as 0 when either norm is 0. -/
noncomputable def cosineSim (a b : List ℝ) : ℝ :=
  if vecNorm a = 0 ∨ vecNorm b = 0 then 0
  else dotProduct a b / (vecNorm a * vecNorm b)

theorem dotProduct_comm (a b : List ℝ) : dotProduct a b = dotProduct b a := by
  induction a generalizing b with
  | nil => cases b <;> simp [dotProduct]
  | cons x a ih =>
    cases b with
    | nil => simp [dotProduct]
    | cons y b =>
      simp only [dotProduct, List.zipWith_cons_cons, List.sum_cons] at ih ⊢
      rw [mul_comm, ih]

theorem dotProduct_self_nonneg (a : List ℝ) : 0 ≤ dotProduct a a := by
  induction a with
  | nil => simp [dotProduct]
  | cons x a ih =>
    simp only [dotProduct, List.zipWith_cons_cons, List.sum_cons] at ih ⊢
    exact add_nonneg (mul_self_nonneg x) ih

theorem dotProduct_eq_zero_left (a b : List ℝ)
    (ha : dotProduct a a = 0) : dotProduct a b = 0 := by
  induction a generalizing b with
  | nil => simp [dotProduct]
  | cons x a ih =>
    simp only [dotProduct, List.zipWith_cons_cons, List.sum_cons] at ha ⊢
    have ha2 : x * x + dotProduct a a = 0 := ha
    have hx : x * x = 0 ∧ dotProduct a a = 0 := by
      have h1 := mul_self_nonneg x
      have h2 := dotProduct_self_nonneg a
      constructor <;> linarith
    cases b with
    | nil => simp [dotProduct]
    | cons y b =>
      have hx0 : x = 0 := by
        have := hx.1
        nlinarith
      simp only [List.zipWith_cons_cons, List.sum_cons, hx0, zero_mul, zero_add]
      exact ih b hx.2

theorem vecNorm_eq_zero_dot (a : List ℝ) (h : vecNorm a = 0) :
    dotProduct a a = 0 :=
  (Real.sqrt_eq_zero (dotProduct_self_nonneg a)).mp h

/-- C3: cosine similarity between any two embedding vectors a and b
equals dot(a,b) divided by the product of their norms, and equals 0
whenever either vector has norm 0.  The first equation also holds in
the zero-norm case because a vector of norm 0 has zero dot product with
every vector, so both sides are 0. -/
theorem cosineSim_spec (a b : List ℝ) :
    cosineSim a b = dotProduct a b / (vecNorm a * vecNorm b) ∧
    ((vecNorm a = 0 ∨ vecNorm b = 0) → cosineSim a b = 0) := by
  constructor
  · unfold cosineSim
    by_cases h : vecNorm a = 0 ∨ vecNorm b = 0
    · rw [if_pos h]
      have hd : dotProduct a b = 0 := by
        rcases h with h | h
        · exact dotProduct_eq_zero_left a b (vecNorm_eq_zero_dot a h)
        · rw [dotProduct_comm]
          exact dotProduct_eq_zero_left b a (vecNorm_eq_zero_dot b h)
      rw [hd, zero_div]
    · rw [if_neg h]
  · intro h
    unfold cosineSim
    rw [if_pos h]

/-- Witness for C3 at a concrete zero-norm vector. -/
theorem cosineSim_spec_spot :
    vecNorm [(0 : ℝ)] = 0 ∧ cosineSim [(0 : ℝ)] [(1 : ℝ)] = 0 := by
  have h0 : vecNorm [(0 : ℝ)] = 0 := by
    simp [vecNorm, dotProduct]
  exact ⟨h0, (cosineSim_spec [(0 : ℝ)] [(1 : ℝ)]).2 (Or.inl h0)⟩

/-- C7: cosine similarity is symmetric: for every pair of embeddings a
and b, sim(a,b) equals sim(b,a). -/
theorem cosineSim_comm (a b : List ℝ) : cosineSim a b = cosineSim b a := by
  unfold cosineSim
  by_cases h : vecNorm a = 0 ∨ vecNorm b = 0
  · rw [if_pos h, if_pos h.symm]
  · rw [if_neg h, if_neg (fun hc => h hc.symm), dotProduct_comm,
      mul_comm (vecNorm a) (vecNorm b)]

/-! Similarity Engine ranking, modelled from the spec -/

/-- Modelled from the spec: a chip record as the Similarity Engine
reads it — a unique stable chipId and an embedding vector (the
footprint, centroid and thumbnail fields play no role in ranking). -/
structure ChipRecord where
  chipId : String
  embedding : List ℚ
  deriving DecidableEq

/-- The ranking order of spec section 4.4 on (chipId, score) pairs:
descending score, ties broken by ascending chipId. -/
def rankedBefore (p q : String × ℚ) : Prop :=
  q.2 < p.2 ∨ (p.2 = q.2 ∧ p.1 ≤ q.1)

instance : DecidableRel rankedBefore := fun p q =>
  inferInstanceAs (Decidable (q.2 < p.2 ∨ (p.2 = q.2 ∧ p.1 ≤ q.1)))

instance : IsTrans (String × ℚ) rankedBefore where
  trans p q r hpq hqr := by
    rcases hpq with h1 | ⟨h1, h1s⟩ <;> rcases hqr with h2 | ⟨h2, h2s⟩
    · exact Or.inl (lt_trans h2 h1)
    · exact Or.inl (h2 ▸ h1)
    · exact Or.inl (lt_of_lt_of_eq h2 h1.symm)
    · exact Or.inr ⟨h1.trans h2, h1s.trans h2s⟩

instance : IsTotal (String × ℚ) rankedBefore where
  total p q := by
    rcases lt_trichotomy p.2 q.2 with h | h | h
    · exact Or.inr (Or.inl h)
    · rcases le_total p.1 q.1 with hs | hs
      · exact Or.inl (Or.inr ⟨h, hs⟩)
      · exact Or.inr (Or.inr ⟨h.symm, hs⟩)
    · exact Or.inl (Or.inl h)

/-- Modelled from the spec: the Similarity Engine of section 4.4
(backend/mcp_server, not part of this checkout).  The engine is kept
parametric in the scoring function (cosine similarity against the seed
embedding in the backend): every corpus chip other than the seed is
scored, the scored pairs are ranked by descending score with ties
broken by ascending chipId, and the first topN entries are returned. -/
def topSimilar (score : ChipRecord → ℚ) (corpus : List ChipRecord)
    (seed : ChipRecord) (topN : ℕ) : List (String × ℚ) :=
  (List.insertionSort rankedBefore
      ((corpus.filter (fun c => c.chipId != seed.chipId)).map
        (fun c => (c.chipId, score c)))).take topN

/-- C1: for every seed chip, the similarity list returned by the
Similarity Engine excludes the seed chip's own chipId, has length at
most topN, and is sorted by descending similarity score with ties
broken by ascending chipId. -/
theorem topSimilar_spec (score : ChipRecord → ℚ) (corpus : List ChipRecord)
    (seed : ChipRecord) (topN : ℕ) :
    (∀ p ∈ topSimilar score corpus seed topN, p.1 ≠ seed.chipId) ∧
    (topSimilar score corpus seed topN).length ≤ topN ∧
    (topSimilar score corpus seed topN).Pairwise rankedBefore := by
  refine ⟨?_, ?_, ?_⟩
  · intro p hp
    have hp2 := List.mem_of_mem_take hp
    rw [List.mem_insertionSort] at hp2
    obtain ⟨c, hc, rfl⟩ := List.mem_map.mp hp2
    have := (List.mem_filter.mp hc).2
    simpa using this
  · rw [topSimilar, List.length_take]
    exact min_le_left _ _
  · exact List.Pairwise.sublist (List.take_sublist _ _)
      (List.sorted_insertionSort rankedBefore _)

/-- Witness for C1 on the concrete scenario corpus of spec section 8:
seed chip C42, corpus chips C1, C2 and C42 themselves, with C1 scoring
1 and C2 scoring 0; C1 heads the list and C42 is excluded. -/
theorem topSimilar_spec_spot :
    ("C1", (1 : ℚ)).1 ≠ "C42" ∧
    (topSimilar
        (fun c => if c.chipId = "C1" then 1 else 0)
        [⟨"C1", [1, 0, 0]⟩, ⟨"C2", [0, 1, 0]⟩, ⟨"C42", [1, 0, 0]⟩]
        ⟨"C42", [1, 0, 0]⟩ 12).length ≤ 12 := by
  have h := topSimilar_spec
    (fun c => if c.chipId = "C1" then 1 else 0)
    [⟨"C1", [1, 0, 0]⟩, ⟨"C2", [0, 1, 0]⟩, ⟨"C42", [1, 0, 0]⟩]
    ⟨"C42", [1, 0, 0]⟩ 12
  exact ⟨h.1 ("C1", (1 : ℚ)) (by decide), h.2.1⟩

/-! Bounded cache, modelled from the spec -/

/-- The cache entry of spec section 3: a value with its insertion time
and time-to-live (times in abstract ticks). -/
structure CacheEntry (V : Type) where
  value : V
  insertedAt : ℕ
  ttl : ℕ
  deriving DecidableEq

/-- Modelled from the spec: a Bounded Cache instance (section 4.1,
backend caches not in this checkout) is its association list of
entries, most recent insertion first. -/
abbrev Cache (K V : Type) : Type := List (K × CacheEntry V)

/-- The raw lookup of the stored entry object for a key, ignoring
expiry: the entry may still occupy memory after its TTL has passed. -/
def lookupEntry {K V : Type} [DecidableEq K] (c : Cache K V) (k : K) :
    Option (CacheEntry V) :=
  (c.find? (fun p => decide (p.1 = k))).map (fun p => p.2)

/-- An entry is fresh at time `now` when its age does not exceed its
ttl. -/
def isFresh {V : Type} (now : ℕ) (e : CacheEntry V) : Bool :=
  decide (now - e.insertedAt ≤ e.ttl)

/-- `get(key)`: entries past their TTL are treated as misses on access
(lazy expiry, spec section 4.1). -/
def Cache.get {K V : Type} [DecidableEq K] (c : Cache K V) (now : ℕ)
    (k : K) : Option V :=
  match lookupEntry c k with
  | some e => if isFresh now e then some e.value else none
  | none => none

/-- A successful compute inserts the value with a fresh insertedAt. -/
def Cache.insert {K V : Type} [DecidableEq K] (c : Cache K V) (k : K)
    (v : V) (now ttl : ℕ) : Cache K V :=
  (k, ⟨v, now, ttl⟩) :: c

/-- Modelled from the spec: `getOrCompute(key, computeFn)` (section
4.1): a fresh hit returns the cached value; on a miss the computation
runs, a success is inserted with a fresh insertedAt, and a failure is
surfaced while the cache is left untouched. -/
def getOrCompute {K V E : Type} [DecidableEq K] (c : Cache K V) (now : ℕ)
    (k : K) (ttl : ℕ) (computeFn : Unit → Except E V) :
    Except E V × Cache K V :=
  match Cache.get c now k with
  | some v => (.ok v, c)
  | none =>
    match computeFn () with
    | .ok v => (.ok v, Cache.insert c k v now ttl)
    | .error e => (.error e, c)

theorem get_eq_none_of_lookupEntry_none {K V : Type} [DecidableEq K]
    (c : Cache K V) (now : ℕ) (k : K) (h : lookupEntry c k = none) :
    Cache.get c now k = none := by
  unfold Cache.get
  rw [h]

/-- C6: for every cache entry whose age exceeds its ttl, a subsequent
get returns not-found (the entry is treated as a miss on access), even
though the entry object is still stored in the cache's memory. -/
theorem expired_entry_is_miss {K V : Type} [DecidableEq K]
    (c : Cache K V) (now : ℕ) (k : K) (e : CacheEntry V)
    (hmem : lookupEntry c k = some e) (hexp : e.ttl < now - e.insertedAt) :
    Cache.get c now k = none := by
  unfold Cache.get
  rw [hmem]
  have hf : isFresh now e = false := by
    simp only [isFresh, decide_eq_false_iff_not]
    omega
  simp [hf]

/-- Witness for C6: an entry inserted at tick 0 with ttl 5 is still
stored at tick 10, yet get misses. -/
theorem expired_entry_is_miss_spot :
    lookupEntry [(("marina" : String), (⟨(7 : ℕ), 0, 5⟩ : CacheEntry ℕ))]
        "marina" = some ⟨7, 0, 5⟩ ∧
    Cache.get [(("marina" : String), (⟨(7 : ℕ), 0, 5⟩ : CacheEntry ℕ))]
        10 "marina" = none := by
  refine ⟨by decide, ?_⟩
  exact expired_entry_is_miss _ 10 "marina" ⟨7, 0, 5⟩ (by decide) (by decide)

/-- C5: when a cache computeFn fails, the cache state for that key is
unchanged — the key remains absent, nothing is inserted (no negative
caching), and the next caller for that key retriggers the computation,
receiving exactly the outcome of its own computeFn. -/
theorem computeFn_failure_not_cached {K V E : Type} [DecidableEq K]
    (c : Cache K V) (now : ℕ) (k : K) (ttl : ℕ)
    (f : Unit → Except E V) (err : E)
    (habs : lookupEntry c k = none) (hf : f () = .error err) :
    getOrCompute c now k ttl f = (.error err, c) ∧
    lookupEntry (getOrCompute c now k ttl f).2 k = none ∧
    (∀ (now2 : ℕ) (f2 : Unit → Except E V),
      (getOrCompute (getOrCompute c now k ttl f).2 now2 k ttl f2).1 = f2 ()) := by
  have hget : ∀ t, Cache.get c t k = none :=
    fun t => get_eq_none_of_lookupEntry_none c t k habs
  have hmain : getOrCompute c now k ttl f = (.error err, c) := by
    unfold getOrCompute
    rw [hget now, hf]
  refine ⟨hmain, ?_, ?_⟩
  · rw [hmain]
    exact habs
  · intro now2 f2
    rw [hmain]
    unfold getOrCompute
    rw [hget now2]
    cases h2 : f2 () <;> simp

/-- Witness for C5: a failing computation on the empty cache leaves it
empty and a retry with a succeeding computation gets its value. -/
theorem computeFn_failure_not_cached_spot :
    getOrCompute ([] : Cache String ℕ) 0 "marina" 5
        (fun _ => Except.error "boom") = (Except.error "boom", []) ∧
    (getOrCompute
        (getOrCompute ([] : Cache String ℕ) 0 "marina" 5
          (fun _ => Except.error "boom")).2 1 "marina" 5
        (fun _ => (Except.ok 7 : Except String ℕ))).1 = Except.ok 7 := by
  have h := computeFn_failure_not_cached ([] : Cache String ℕ) 0 "marina" 5
    (fun _ => Except.error "boom") "boom" (by decide) rfl
  exact ⟨h.1, h.2.2 1 (fun _ => (Except.ok 7 : Except String ℕ))⟩

/-! Geocoder text normalization, modelled from the spec -/

/-- The coordinate value type of the spec data model (floats modelled
as rationals). -/
structure Coordinate where
  latitude : ℚ
  longitude : ℚ
  deriving DecidableEq

/-- Collapse every internal whitespace run to a single space. -/
def squeezeWS (l : List Char) : List Char :=
  l.foldr
    (fun c acc =>
      if c.isWhitespace then
        if acc.head? = some ' ' then acc else ' ' :: acc
      else c :: acc) []

/-- Modelled from the spec: geocoder text normalization (section 4.2,
backend/mcp_server/osm_client.py not in this checkout) — trim
whitespace, case-fold, collapse internal whitespace; the normalized
text is the cache key. -/
def normalizeQuery (s : String) : String :=
  String.mk (jsTrimList (squeezeWS (s.data.map Char.toLower)))

/-! Cached upstream calls and their stability -/

/-- A cached upstream call: `getOrCompute` applied to a deterministic
upstream function of the key, the discipline every pipeline cache layer
uses per spec sections 4.2-4.4. -/
def cachedCall {K V E : Type} [DecidableEq K] (f : K → Except E V)
    (now ttl : ℕ) (c : Cache K V) (k : K) : Except E V × Cache K V :=
  getOrCompute c now k ttl (fun _ => f k)

theorem get_insert_self {K V : Type} [DecidableEq K] (c : Cache K V)
    (k : K) (v : V) (now ttl : ℕ) :
    Cache.get (Cache.insert c k v now ttl) now k = some v := by
  unfold Cache.get Cache.insert lookupEntry
  simp [List.find?, isFresh]

theorem get_insert_ne {K V : Type} [DecidableEq K] (c : Cache K V)
    (k k2 : K) (v : V) (now ttl t : ℕ) (hne : k ≠ k2) :
    Cache.get (Cache.insert c k2 v now ttl) t k = Cache.get c t k := by
  unfold Cache.get Cache.insert lookupEntry
  simp [List.find?, hne.symm]

/-- The three mutually exclusive outcomes of a cached upstream call:
a fresh hit (cache untouched), a computed success (inserted), or a
computed failure (cache untouched). -/
theorem cachedCall_cases {K V E : Type} [DecidableEq K]
    (f : K → Except E V) (now ttl : ℕ) (c : Cache K V) (k : K) :
    (∃ v, Cache.get c now k = some v ∧
      cachedCall f now ttl c k = (.ok v, c)) ∨
    (Cache.get c now k = none ∧ ∃ v, f k = .ok v ∧
      cachedCall f now ttl c k = (.ok v, Cache.insert c k v now ttl)) ∨
    (Cache.get c now k = none ∧ ∃ e, f k = .error e ∧
      cachedCall f now ttl c k = (.error e, c)) := by
  unfold cachedCall getOrCompute
  cases hg : Cache.get c now k with
  | some v => exact Or.inl ⟨v, rfl, rfl⟩
  | none =>
    cases hf : f k with
    | ok v => exact Or.inr (Or.inl ⟨rfl, v, rfl, rfl⟩)
    | error e => exact Or.inr (Or.inr ⟨rfl, e, rfl, rfl⟩)

/-- A fresh hit for a key survives any cached call for any key: entries
are never overwritten and inserts are for missing keys only. -/
theorem get_some_preserved {K V E : Type} [DecidableEq K]
    (f : K → Except E V) (now ttl : ℕ) (c : Cache K V) (k k2 : K) (v : V)
    (h : Cache.get c now k = some v) :
    Cache.get (cachedCall f now ttl c k2).2 now k = some v := by
  rcases cachedCall_cases f now ttl c k2 with
    ⟨w, _, heq⟩ | ⟨hmiss, w, _, heq⟩ | ⟨_, e, _, heq⟩
  · rw [heq]
    exact h
  · rw [heq]
    have hne : k ≠ k2 := by
      intro hk
      rw [hk, hmiss] at h
      exact Option.noConfusion h
    rw [get_insert_ne c k k2 w now ttl now hne]
    exact h
  · rw [heq]
    exact h

/-- A key that misses and whose upstream fails stays missing across any
cached call: failures are never inserted. -/
theorem get_none_error_preserved {K V E : Type} [DecidableEq K]
    (f : K → Except E V) (now ttl : ℕ) (c : Cache K V) (k k2 : K) (e : E)
    (hmiss : Cache.get c now k = none) (herr : f k = .error e) :
    Cache.get (cachedCall f now ttl c k2).2 now k = none := by
  rcases cachedCall_cases f now ttl c k2 with
    ⟨w, _, heq⟩ | ⟨hmiss2, w, hok, heq⟩ | ⟨_, e2, _, heq⟩
  · rw [heq]
    exact hmiss
  · rw [heq]
    have hne : k ≠ k2 := by
      intro hk
      rw [hk] at herr
      rw [herr] at hok
      exact Except.noConfusion hok
    rw [get_insert_ne c k k2 w now ttl now hne]
    exact hmiss
  · rw [heq]
    exact hmiss

/-- Re-issuing a cached call for the same key at the same tick returns
the same outcome and leaves the cache unchanged. -/
theorem cachedCall_idem {K V E : Type} [DecidableEq K]
    (f : K → Except E V) (now ttl : ℕ) (c : Cache K V) (k : K) :
    cachedCall f now ttl (cachedCall f now ttl c k).2 k =
      cachedCall f now ttl c k := by
  rcases cachedCall_cases f now ttl c k with
    ⟨v, hget, heq⟩ | ⟨hmiss, v, hok, heq⟩ | ⟨hmiss, e, herr, heq⟩
  · rw [heq]
    unfold cachedCall getOrCompute
    rw [hget]
  · rw [heq]
    unfold cachedCall getOrCompute
    rw [get_insert_self c k v now ttl]
  · rw [heq]
    unfold cachedCall getOrCompute
    rw [hmiss, herr]

theorem cachedCall_hit {K V E : Type} [DecidableEq K] (f : K → Except E V)
    (now ttl : ℕ) (c : Cache K V) (k : K) (v : V)
    (h : Cache.get c now k = some v) :
    cachedCall f now ttl c k = (.ok v, c) := by
  unfold cachedCall getOrCompute
  rw [h]

theorem cachedCall_miss_error {K V E : Type} [DecidableEq K]
    (f : K → Except E V) (now ttl : ℕ) (c : Cache K V) (k : K) (e : E)
    (hmiss : Cache.get c now k = none) (herr : f k = .error e) :
    cachedCall f now ttl c k = (.error e, c) := by
  unfold cachedCall getOrCompute
  rw [hmiss, herr]

/-! Warmup Runner, modelled from the spec -/

/-- The three cache layers of the pipeline (spec section 2): geocode
results keyed by normalized text, chip records keyed by the quantized
coordinate (key type kept parametric, the precision being an open
question in the spec), and similarity lists keyed by seed chipId. -/
structure PipelineCaches (QK : Type) where
  geo : Cache String Coordinate
  chip : Cache QK ChipRecord
  sim : Cache String (List (String × ℚ))
  deriving DecidableEq

/-- The scoring stage of one warmup query: a cached similarity call
keyed by the seed chipId. -/
def stage3 (similar : String → Except ScoreFailure (List (String × ℚ)))
    (now ttl : ℕ) (simc : Cache String (List (String × ℚ)))
    (chip : ChipRecord) : Cache String (List (String × ℚ)) :=
  (cachedCall similar now ttl simc chip.chipId).2

/-- The locating and scoring stages of one warmup query: a cached
locate call keyed by the quantized coordinate, followed on success by
the scoring stage; on failure the remaining stage is skipped. -/
def stage23 {QK : Type} [DecidableEq QK]
    (locate : QK → Except LocFailure ChipRecord)
    (similar : String → Except ScoreFailure (List (String × ℚ)))
    (now ttl : ℕ) (chipc : Cache QK ChipRecord)
    (simc : Cache String (List (String × ℚ))) (k2 : QK) :
    Cache QK ChipRecord × Cache String (List (String × ℚ)) :=
  match cachedCall locate now ttl chipc k2 with
  | (.error _, chip2) => (chip2, simc)
  | (.ok chip, chip2) => (chip2, stage3 similar now ttl simc chip)

/-- Modelled from the spec: one warmup query driven through the full
orchestrator pipeline (section 4.6; backend not in this checkout).
Geocoding, locating and scoring each go through their cache layer's
getOrCompute; a failed stage is logged, not fatal, leaving the caches
accumulated so far. -/
def warmupQuery {QK : Type} [DecidableEq QK]
    (g : String → Except GeoFailure Coordinate) (quantKey : Coordinate → QK)
    (locate : QK → Except LocFailure ChipRecord)
    (similar : String → Except ScoreFailure (List (String × ℚ)))
    (now ttl : ℕ) (s : PipelineCaches QK) (q : String) : PipelineCaches QK :=
  match cachedCall g now ttl s.geo (normalizeQuery q) with
  | (.error _, geo2) => { s with geo := geo2 }
  | (.ok coord, geo2) =>
    { geo := geo2,
      chip := (stage23 locate similar now ttl s.chip s.sim (quantKey coord)).1,
      sim := (stage23 locate similar now ttl s.chip s.sim (quantKey coord)).2 }

/-- Modelled from the spec: the Warmup Runner drives a fixed ordered
list of representative text queries through the orchestrator. -/
def warmupRun {QK : Type} [DecidableEq QK]
    (g : String → Except GeoFailure Coordinate) (quantKey : Coordinate → QK)
    (locate : QK → Except LocFailure ChipRecord)
    (similar : String → Except ScoreFailure (List (String × ℚ)))
    (now ttl : ℕ) (queries : List String) (s : PipelineCaches QK) :
    PipelineCaches QK :=
  queries.foldl (fun acc q => warmupQuery g quantKey locate similar now ttl acc q) s

section WarmupStability

variable {QK : Type} [inst : DecidableEq QK]
variable (g : String → Except GeoFailure Coordinate) (quantKey : Coordinate → QK)
variable (locate : QK → Except LocFailure ChipRecord)
variable (similar : String → Except ScoreFailure (List (String × ℚ)))
variable (now ttl : ℕ)

/-- The scoring cache is settled for a key: a fresh hit, or a miss
whose upstream deterministically fails (so nothing will be inserted). -/
def Stable3 (simc : Cache String (List (String × ℚ))) (key : String) : Prop :=
  (∃ r, Cache.get simc now key = some r) ∨
  (Cache.get simc now key = none ∧ ∃ e, similar key = .error e)

/-- The locating and scoring caches are settled for a quantized key. -/
def Stable23 (chipc : Cache QK ChipRecord)
    (simc : Cache String (List (String × ℚ))) (k2 : QK) : Prop :=
  (Cache.get chipc now k2 = none ∧ ∃ e, locate k2 = .error e) ∨
  (∃ chip, Cache.get chipc now k2 = some chip ∧
    Stable3 similar now simc chip.chipId)

/-- All three cache layers are settled for a query. -/
def QueryStable (s : PipelineCaches QK) (q : String) : Prop :=
  (Cache.get s.geo now (normalizeQuery q) = none ∧
    ∃ e, g (normalizeQuery q) = .error e) ∨
  (∃ coord, Cache.get s.geo now (normalizeQuery q) = some coord ∧
    Stable23 locate similar now s.chip s.sim (quantKey coord))

theorem stage23_err (chipc : Cache QK ChipRecord)
    (simc : Cache String (List (String × ℚ))) (k2 : QK) (e : LocFailure)
    (chip2 : Cache QK ChipRecord)
    (h : cachedCall locate now ttl chipc k2 = (.error e, chip2)) :
    stage23 locate similar now ttl chipc simc k2 = (chip2, simc) := by
  unfold stage23
  rw [h]

theorem stage23_ok (chipc : Cache QK ChipRecord)
    (simc : Cache String (List (String × ℚ))) (k2 : QK) (chip : ChipRecord)
    (chip2 : Cache QK ChipRecord)
    (h : cachedCall locate now ttl chipc k2 = (.ok chip, chip2)) :
    stage23 locate similar now ttl chipc simc k2 =
      (chip2, stage3 similar now ttl simc chip) := by
  unfold stage23
  rw [h]

theorem warmupQuery_err (s : PipelineCaches QK) (q : String) (e : GeoFailure)
    (geo2 : Cache String Coordinate)
    (h : cachedCall g now ttl s.geo (normalizeQuery q) = (.error e, geo2)) :
    warmupQuery g quantKey locate similar now ttl s q = { s with geo := geo2 } := by
  unfold warmupQuery
  rw [h]

theorem warmupQuery_ok (s : PipelineCaches QK) (q : String) (coord : Coordinate)
    (geo2 : Cache String Coordinate)
    (h : cachedCall g now ttl s.geo (normalizeQuery q) = (.ok coord, geo2)) :
    warmupQuery g quantKey locate similar now ttl s q =
      { geo := geo2,
        chip := (stage23 locate similar now ttl s.chip s.sim (quantKey coord)).1,
        sim := (stage23 locate similar now ttl s.chip s.sim (quantKey coord)).2 } := by
  unfold warmupQuery
  rw [h]

theorem stage3_of_stable (simc : Cache String (List (String × ℚ)))
    (chip : ChipRecord) (h : Stable3 similar now simc chip.chipId) :
    stage3 similar now ttl simc chip = simc := by
  unfold stage3
  rcases h with ⟨r, hget⟩ | ⟨hmiss, e, herr⟩
  · rw [cachedCall_hit similar now ttl simc chip.chipId r hget]
  · rw [cachedCall_miss_error similar now ttl simc chip.chipId e hmiss herr]

theorem stable3_stage3_self (simc : Cache String (List (String × ℚ)))
    (chip : ChipRecord) :
    Stable3 similar now (stage3 similar now ttl simc chip) chip.chipId := by
  unfold stage3 Stable3
  rcases cachedCall_cases similar now ttl simc chip.chipId with
    ⟨r, hget, heq⟩ | ⟨hmiss, r, hok, heq⟩ | ⟨hmiss, e, herr, heq⟩
  · rw [heq]
    exact Or.inl ⟨r, hget⟩
  · rw [heq]
    exact Or.inl ⟨r, get_insert_self simc chip.chipId r now ttl⟩
  · rw [heq]
    exact Or.inr ⟨hmiss, e, herr⟩

theorem stable3_mono (simc : Cache String (List (String × ℚ)))
    (key : String) (chip2 : ChipRecord)
    (h : Stable3 similar now simc key) :
    Stable3 similar now (stage3 similar now ttl simc chip2) key := by
  unfold Stable3 at h ⊢
  unfold stage3
  rcases h with ⟨r, hget⟩ | ⟨hmiss, e, herr⟩
  · exact Or.inl ⟨r,
      get_some_preserved similar now ttl simc key chip2.chipId r hget⟩
  · exact Or.inr
      ⟨get_none_error_preserved similar now ttl simc key chip2.chipId e hmiss herr,
       e, herr⟩

theorem stage23_fst (chipc : Cache QK ChipRecord)
    (simc : Cache String (List (String × ℚ))) (k2 : QK) :
    (stage23 locate similar now ttl chipc simc k2).1 =
      (cachedCall locate now ttl chipc k2).2 := by
  unfold stage23
  rcases hc : cachedCall locate now ttl chipc k2 with ⟨r, chip2⟩
  cases r <;> rfl

theorem stage23_snd_cases (chipc : Cache QK ChipRecord)
    (simc : Cache String (List (String × ℚ))) (k2 : QK) :
    (stage23 locate similar now ttl chipc simc k2).2 = simc ∨
    ∃ chip, (stage23 locate similar now ttl chipc simc k2).2 =
      stage3 similar now ttl simc chip := by
  unfold stage23
  rcases hc : cachedCall locate now ttl chipc k2 with ⟨r, chip2⟩
  cases r with
  | error e => exact Or.inl rfl
  | ok chip => exact Or.inr ⟨chip, rfl⟩

theorem stage23_of_stable (chipc : Cache QK ChipRecord)
    (simc : Cache String (List (String × ℚ))) (k2 : QK)
    (h : Stable23 locate similar now chipc simc k2) :
    stage23 locate similar now ttl chipc simc k2 = (chipc, simc) := by
  rcases h with ⟨hmiss, e, herr⟩ | ⟨chip, hget, h3⟩
  · rw [stage23_err locate similar now ttl chipc simc k2 e chipc
      (cachedCall_miss_error locate now ttl chipc k2 e hmiss herr)]
  · rw [stage23_ok locate similar now ttl chipc simc k2 chip chipc
      (cachedCall_hit locate now ttl chipc k2 chip hget)]
    rw [stage3_of_stable similar now ttl simc chip h3]

theorem stable23_stage23_self (chipc : Cache QK ChipRecord)
    (simc : Cache String (List (String × ℚ))) (k2 : QK) :
    Stable23 locate similar now
      (stage23 locate similar now ttl chipc simc k2).1
      (stage23 locate similar now ttl chipc simc k2).2 k2 := by
  rcases cachedCall_cases locate now ttl chipc k2 with
    ⟨chip, hget, heq⟩ | ⟨hmiss, chip, hok, heq⟩ | ⟨hmiss, e, herr, heq⟩
  · rw [stage23_ok locate similar now ttl chipc simc k2 chip chipc heq]
    exact Or.inr ⟨chip, hget, stable3_stage3_self similar now ttl simc chip⟩
  · rw [stage23_ok locate similar now ttl chipc simc k2 chip
      (Cache.insert chipc k2 chip now ttl) heq]
    exact Or.inr ⟨chip, get_insert_self chipc k2 chip now ttl,
      stable3_stage3_self similar now ttl simc chip⟩
  · rw [stage23_err locate similar now ttl chipc simc k2 e chipc heq]
    exact Or.inl ⟨hmiss, e, herr⟩

theorem stable23_mono (chipc : Cache QK ChipRecord)
    (simc : Cache String (List (String × ℚ))) (k2 k3 : QK)
    (h : Stable23 locate similar now chipc simc k2) :
    Stable23 locate similar now
      (stage23 locate similar now ttl chipc simc k3).1
      (stage23 locate similar now ttl chipc simc k3).2 k2 := by
  rw [stage23_fst locate similar now ttl chipc simc k3]
  rcases h with ⟨hmiss, e, herr⟩ | ⟨chip, hget, h3⟩
  · exact Or.inl
      ⟨get_none_error_preserved locate now ttl chipc k2 k3 e hmiss herr, e, herr⟩
  · refine Or.inr ⟨chip,
      get_some_preserved locate now ttl chipc k2 k3 chip hget, ?_⟩
    rcases stage23_snd_cases locate similar now ttl chipc simc k3 with
      hsnd | ⟨chip3, hsnd⟩
    · rw [hsnd]
      exact h3
    · rw [hsnd]
      exact stable3_mono similar now ttl simc chip.chipId chip3 h3

theorem warmupQuery_of_stable (s : PipelineCaches QK) (q : String)
    (h : QueryStable g quantKey locate similar now s q) :
    warmupQuery g quantKey locate similar now ttl s q = s := by
  rcases h with ⟨hmiss, e, herr⟩ | ⟨coord, hget, h23⟩
  · rw [warmupQuery_err g quantKey locate similar now ttl s q e s.geo
      (cachedCall_miss_error g now ttl s.geo (normalizeQuery q) e hmiss herr)]
  · rw [warmupQuery_ok g quantKey locate similar now ttl s q coord s.geo
      (cachedCall_hit g now ttl s.geo (normalizeQuery q) coord hget)]
    rw [stage23_of_stable locate similar now ttl s.chip s.sim
      (quantKey coord) h23]

theorem queryStable_warmupQuery_self (s : PipelineCaches QK) (q : String) :
    QueryStable g quantKey locate similar now
      (warmupQuery g quantKey locate similar now ttl s q) q := by
  rcases cachedCall_cases g now ttl s.geo (normalizeQuery q) with
    ⟨coord, hget, heq⟩ | ⟨hmiss, coord, hok, heq⟩ | ⟨hmiss, e, herr, heq⟩
  · rw [warmupQuery_ok g quantKey locate similar now ttl s q coord s.geo heq]
    exact Or.inr ⟨coord, hget,
      stable23_stage23_self locate similar now ttl s.chip s.sim (quantKey coord)⟩
  · rw [warmupQuery_ok g quantKey locate similar now ttl s q coord
      (Cache.insert s.geo (normalizeQuery q) coord now ttl) heq]
    exact Or.inr ⟨coord,
      get_insert_self s.geo (normalizeQuery q) coord now ttl,
      stable23_stage23_self locate similar now ttl s.chip s.sim (quantKey coord)⟩
  · rw [warmupQuery_err g quantKey locate similar now ttl s q e s.geo heq]
    exact Or.inl ⟨hmiss, e, herr⟩

theorem warmupQuery_geo (s : PipelineCaches QK) (q : String) :
    (warmupQuery g quantKey locate similar now ttl s q).geo =
      (cachedCall g now ttl s.geo (normalizeQuery q)).2 := by
  unfold warmupQuery
  rcases hc : cachedCall g now ttl s.geo (normalizeQuery q) with ⟨r, geo2⟩
  cases r <;> rfl

theorem warmupQuery_chipsim_cases (s : PipelineCaches QK) (q : String) :
    ((warmupQuery g quantKey locate similar now ttl s q).chip = s.chip ∧
     (warmupQuery g quantKey locate similar now ttl s q).sim = s.sim) ∨
    ∃ k2, (warmupQuery g quantKey locate similar now ttl s q).chip =
        (stage23 locate similar now ttl s.chip s.sim k2).1 ∧
      (warmupQuery g quantKey locate similar now ttl s q).sim =
        (stage23 locate similar now ttl s.chip s.sim k2).2 := by
  unfold warmupQuery
  rcases hc : cachedCall g now ttl s.geo (normalizeQuery q) with ⟨r, geo2⟩
  cases r with
  | error e => exact Or.inl ⟨rfl, rfl⟩
  | ok coord => exact Or.inr ⟨quantKey coord, rfl, rfl⟩

theorem queryStable_mono (s : PipelineCaches QK) (q q2 : String)
    (h : QueryStable g quantKey locate similar now s q) :
    QueryStable g quantKey locate similar now
      (warmupQuery g quantKey locate similar now ttl s q2) q := by
  rcases h with ⟨hmiss, e, herr⟩ | ⟨coord, hget, h23⟩
  · refine Or.inl ⟨?_, e, herr⟩
    rw [warmupQuery_geo g quantKey locate similar now ttl s q2]
    exact get_none_error_preserved g now ttl s.geo (normalizeQuery q)
      (normalizeQuery q2) e hmiss herr
  · refine Or.inr ⟨coord, ?_, ?_⟩
    · rw [warmupQuery_geo g quantKey locate similar now ttl s q2]
      exact get_some_preserved g now ttl s.geo (normalizeQuery q)
        (normalizeQuery q2) coord hget
    · rcases warmupQuery_chipsim_cases g quantKey locate similar now ttl s q2
        with ⟨hchip, hsim⟩ | ⟨k2, hchip, hsim⟩
      · rw [hchip, hsim]
        exact h23
      · rw [hchip, hsim]
        exact stable23_mono locate similar now ttl s.chip s.sim
          (quantKey coord) k2 h23

theorem queryStable_warmupRun_mono (qs : List String)
    (s : PipelineCaches QK) (q : String)
    (h : QueryStable g quantKey locate similar now s q) :
    QueryStable g quantKey locate similar now
      (warmupRun g quantKey locate similar now ttl qs s) q := by
  induction qs generalizing s with
  | nil => exact h
  | cons q2 rest ih =>
    exact ih (warmupQuery g quantKey locate similar now ttl s q2)
      (queryStable_mono g quantKey locate similar now ttl s q q2 h)

theorem warmupRun_all_stable (qs : List String) (s : PipelineCaches QK) :
    ∀ q ∈ qs, QueryStable g quantKey locate similar now
      (warmupRun g quantKey locate similar now ttl qs s) q := by
  induction qs generalizing s with
  | nil => intro q hq; exact absurd hq (List.not_mem_nil q)
  | cons q2 rest ih =>
    intro q hq
    rcases List.mem_cons.mp hq with rfl | hq2
    · exact queryStable_warmupRun_mono g quantKey locate similar now ttl rest
        (warmupQuery g quantKey locate similar now ttl s q) q
        (queryStable_warmupQuery_self g quantKey locate similar now ttl s q)
    · exact ih (warmupQuery g quantKey locate similar now ttl s q2) q hq2

theorem warmupRun_of_all_stable (qs : List String) (s : PipelineCaches QK)
    (h : ∀ q ∈ qs, QueryStable g quantKey locate similar now s q) :
    warmupRun g quantKey locate similar now ttl qs s = s := by
  induction qs with
  | nil => rfl
  | cons q2 rest ih =>
    have h2 : warmupQuery g quantKey locate similar now ttl s q2 = s :=
      warmupQuery_of_stable g quantKey locate similar now ttl s q2
        (h q2 (List.mem_cons_self q2 rest))
    show warmupRun g quantKey locate similar now ttl rest
      (warmupQuery g quantKey locate similar now ttl s q2) = s
    rw [h2]
    exact ih (fun q hq => h q (List.mem_cons_of_mem q2 hq))

end WarmupStability

/-- A concrete mocked geocoding provider for the warmup scenario of
spec section 8: "marina" and "airport" resolve, everything else yields
no match. -/
def demoGeocoder : String → Except GeoFailure Coordinate :=
  fun s =>
    if s = "marina" then .ok ⟨37808 / 1000, -122411 / 1000⟩
    else if s = "airport" then .ok ⟨37615 / 1000, -122389 / 1000⟩
    else .error .notFound

/-- C8: running the warmup query list through the orchestrator is
idempotent with respect to cache contents — running the same fixed list
twice yields exactly the same cache state as running it once, for any
upstream functions and any starting caches; in particular the scenario
list ["marina", "airport"] run twice from cold caches leaves exactly 2
geocode entries, not 4. -/
theorem warmup_idempotent :
    (∀ (QK : Type) [DecidableEq QK]
        (g : String → Except GeoFailure Coordinate)
        (quantKey : Coordinate → QK)
        (locate : QK → Except LocFailure ChipRecord)
        (similar : String → Except ScoreFailure (List (String × ℚ)))
        (now ttl : ℕ) (qs : List String) (s : PipelineCaches QK),
        warmupRun g quantKey locate similar now ttl qs
            (warmupRun g quantKey locate similar now ttl qs s) =
          warmupRun g quantKey locate similar now ttl qs s) ∧
    (warmupRun demoGeocoder (fun c => (c.latitude, c.longitude))
        (fun _ => .error .noChipCovers) (fun _ => .error .emptyCorpus)
        0 3600 ["marina", "airport"]
        (warmupRun demoGeocoder (fun c => (c.latitude, c.longitude))
          (fun _ => .error .noChipCovers) (fun _ => .error .emptyCorpus)
          0 3600 ["marina", "airport"] ⟨[], [], []⟩)).geo.length = 2 := by
  constructor
  · intro QK instQ g quantKey locate similar now ttl qs s
    exact warmupRun_of_all_stable g quantKey locate similar now ttl qs
      (warmupRun g quantKey locate similar now ttl qs s)
      (warmupRun_all_stable g quantKey locate similar now ttl qs s)
  · decide

/-! Singleflight concurrency model, modelled from the spec -/

/-- Association-list lookup shared by the singleflight model. -/
def lookupAssoc {K A : Type} [DecidableEq K] (l : List (K × A)) (k : K) :
    Option A :=
  (l.find? (fun p => decide (p.1 = k))).map (fun p => p.2)

/-- Modelled from the spec (sections 4.1 and 5): an interleaving event
of the shared cache — a caller (a task id) arriving with a getOrCompute
request for a key, or an in-flight upstream computation completing with
its value.  In deployment the keys are the normalized query texts, so
normalized-equal text queries contend on one key. -/
inductive CacheEvent (K V : Type) where
  | arrive (caller : ℕ) (k : K)
  | complete (k : K) (v : V)
  deriving DecidableEq

/-- Modelled from the spec: the shared mutable state of one cache
instance under the per-instance exclusion mechanism — the settled
cache, the in-flight computations with their registered waiters, the
log of upstream computations started, and the log of results delivered
to callers. -/
structure SFState (K V : Type) where
  cache : List (K × V)
  inflight : List (K × List ℕ)
  upstream : List K
  delivered : List (ℕ × K × V)
  deriving DecidableEq

/-- The empty starting state. -/
def sfInit (K V : Type) : SFState K V :=
  ⟨[], [], [], []⟩

/-- An arriving caller gets a cache hit delivered at once; otherwise it
joins the waiter list of an existing in-flight computation for its key,
or — only when no computation for the key is in flight — starts a new
upstream computation. -/
def sfArrive {K V : Type} [DecidableEq K] (s : SFState K V)
    (caller : ℕ) (k : K) : SFState K V :=
  match lookupAssoc s.cache k with
  | some v => { s with delivered := (caller, k, v) :: s.delivered }
  | none =>
    match lookupAssoc s.inflight k with
    | some waiters =>
      { s with inflight :=
          s.inflight.map (fun p => if p.1 = k then (k, caller :: waiters) else p) }
    | none =>
      { s with inflight := (k, [caller]) :: s.inflight,
               upstream := k :: s.upstream }

/-- A completed computation populates the cache, delivers the value to
every registered waiter and retires the in-flight record. -/
def sfComplete {K V : Type} [DecidableEq K] (s : SFState K V)
    (k : K) (v : V) : SFState K V :=
  match lookupAssoc s.inflight k with
  | some waiters =>
    { s with cache := (k, v) :: s.cache,
             inflight := s.inflight.filter (fun p => decide (p.1 ≠ k)),
             delivered := waiters.map (fun caller => (caller, k, v)) ++ s.delivered }
  | none => s

/-- Modelled from the spec: one atomic bookkeeping step of the cache
under its exclusion mechanism. -/
def sfStep {K V : Type} [DecidableEq K] (s : SFState K V)
    (e : CacheEvent K V) : SFState K V :=
  match e with
  | .arrive caller k => sfArrive s caller k
  | .complete k v => sfComplete s k v

/-- A trace of interleaved events, run from a state. -/
def sfRun {K V : Type} [DecidableEq K] (s : SFState K V)
    (es : List (CacheEvent K V)) : SFState K V :=
  es.foldl sfStep s

theorem lookupAssoc_eq_none {K A : Type} [DecidableEq K]
    (l : List (K × A)) (k : K) (h : lookupAssoc l k = none) :
    ∀ p ∈ l, p.1 ≠ k := by
  intro p hp hk
  unfold lookupAssoc at h
  cases hfind : List.find? (fun p => decide (p.1 = k)) l with
  | some q =>
    rw [hfind] at h
    exact Option.noConfusion h
  | none =>
    have := List.find?_eq_none.mp hfind p hp
    rw [hk] at this
    simp at this

theorem sfArrive_inflight_keys_nodup {K V : Type} [DecidableEq K]
    (s : SFState K V) (caller : ℕ) (k : K)
    (h : (s.inflight.map Prod.fst).Nodup) :
    (((sfArrive s caller k).inflight).map Prod.fst).Nodup := by
  unfold sfArrive
  cases hc : lookupAssoc s.cache k with
  | some v => exact h
  | none =>
    cases hf : lookupAssoc s.inflight k with
    | some waiters =>
      have hkeys : (s.inflight.map
          (fun p => if p.1 = k then (k, caller :: waiters) else p)).map Prod.fst =
          s.inflight.map Prod.fst := by
        rw [List.map_map]
        refine List.map_congr_left ?_
        intro p hp
        by_cases hpk : p.1 = k
        · simp [hpk]
        · simp [hpk]
      show ((s.inflight.map
        (fun p => if p.1 = k then (k, caller :: waiters) else p)).map Prod.fst).Nodup
      rw [hkeys]
      exact h
    | none =>
      show ((k :: s.inflight.map Prod.fst) : List K).Nodup
      refine List.Nodup.cons ?_ h
      intro hmem
      rw [List.mem_map] at hmem
      obtain ⟨p, hp, hpk⟩ := hmem
      exact lookupAssoc_eq_none s.inflight k hf p hp hpk

theorem sfComplete_inflight_keys_nodup {K V : Type} [DecidableEq K]
    (s : SFState K V) (k : K) (v : V)
    (h : (s.inflight.map Prod.fst).Nodup) :
    (((sfComplete s k v).inflight).map Prod.fst).Nodup := by
  unfold sfComplete
  cases hf : lookupAssoc s.inflight k with
  | some waiters =>
    exact List.Nodup.sublist
      (List.Sublist.map Prod.fst (List.filter_sublist s.inflight)) h
  | none => exact h

theorem sfStep_inflight_keys_nodup {K V : Type} [DecidableEq K]
    (s : SFState K V) (e : CacheEvent K V)
    (h : (s.inflight.map Prod.fst).Nodup) :
    (((sfStep s e).inflight).map Prod.fst).Nodup := by
  cases e with
  | arrive caller k => exact sfArrive_inflight_keys_nodup s caller k h
  | complete k v => exact sfComplete_inflight_keys_nodup s k v h

theorem sfRun_inflight_keys_nodup {K V : Type} [DecidableEq K]
    (s : SFState K V) (es : List (CacheEvent K V))
    (h : (s.inflight.map Prod.fst).Nodup) :
    (((sfRun s es).inflight).map Prod.fst).Nodup := by
  induction es generalizing s with
  | nil => exact h
  | cons e rest ih =>
    exact ih (sfStep s e) (sfStep_inflight_keys_nodup s e h)

theorem sfRun_arrivals {K V : Type} [DecidableEq K] (k : K)
    (cs : List ℕ) (ws : List ℕ) (u : List K) (d : List (ℕ × K × V)) :
    sfRun (⟨[], [(k, ws)], u, d⟩ : SFState K V)
        (cs.map (fun c => CacheEvent.arrive c k)) =
      ⟨[], [(k, cs.reverse ++ ws)], u, d⟩ := by
  induction cs generalizing ws with
  | nil => rfl
  | cons c rest ih =>
    have hstep : sfStep (⟨[], [(k, ws)], u, d⟩ : SFState K V)
        (CacheEvent.arrive c k) = ⟨[], [(k, c :: ws)], u, d⟩ := by
      show sfArrive (⟨[], [(k, ws)], u, d⟩ : SFState K V) c k = _
      unfold sfArrive
      simp [lookupAssoc]
    show sfRun (sfStep (⟨[], [(k, ws)], u, d⟩ : SFState K V)
        (CacheEvent.arrive c k)) (rest.map (fun c => CacheEvent.arrive c k)) = _
    rw [hstep, ih (c :: ws)]
    simp

/-- C4: for every key, getOrCompute runs at most one concurrent
computation: in every reachable state the in-flight records hold at
most one computation per key, and for any nonempty batch of concurrent
callers arriving for the same missing key followed by the completion of
the computation, exactly one upstream computation for that key is
started and every caller receives the one computed result.  With keys
the normalized query texts, normalized-equal text queries thus issue at
most one upstream geocode call. -/
theorem singleflight_spec {K V : Type} [DecidableEq K] (k : K) (v : V)
    (callers : List ℕ) (es : List (CacheEvent K V))
    (hne : callers ≠ []) :
    (((sfRun (sfInit K V) es).inflight).map Prod.fst).Nodup ∧
    ((sfRun (sfInit K V)
        (callers.map (fun c => CacheEvent.arrive c k) ++
          [CacheEvent.complete k v])).upstream.count k = 1 ∧
     ∀ c ∈ callers, (c, k, v) ∈
        (sfRun (sfInit K V)
          (callers.map (fun c => CacheEvent.arrive c k) ++
            [CacheEvent.complete k v])).delivered) := by
  refine ⟨sfRun_inflight_keys_nodup (sfInit K V) es (by simp [sfInit]), ?_⟩
  obtain ⟨c0, rest, rfl⟩ := List.exists_cons_of_ne_nil hne
  have hfirst : sfStep (sfInit K V) (CacheEvent.arrive c0 k) =
      ⟨[], [(k, [c0])], [k], []⟩ := by
    show sfArrive (sfInit K V) c0 k = _
    unfold sfArrive sfInit
    simp [lookupAssoc]
  have hmid : sfRun (sfInit K V)
      ((c0 :: rest).map (fun c => CacheEvent.arrive c k)) =
      ⟨[], [(k, rest.reverse ++ [c0])], [k], []⟩ := by
    show sfRun (sfStep (sfInit K V) (CacheEvent.arrive c0 k))
      (rest.map (fun c => CacheEvent.arrive c k)) = _
    rw [hfirst, sfRun_arrivals k rest [c0] [k] []]
  have hall : sfRun (sfInit K V)
      ((c0 :: rest).map (fun c => CacheEvent.arrive c k) ++
        [CacheEvent.complete k v]) =
      ⟨[(k, v)], [],
        [k], (rest.reverse ++ [c0]).map (fun c => (c, k, v)) ++ []⟩ := by
    unfold sfRun
    rw [List.foldl_append]
    show sfStep (sfRun (sfInit K V)
      ((c0 :: rest).map (fun c => CacheEvent.arrive c k)))
      (CacheEvent.complete k v) = _
    rw [hmid]
    show sfComplete (⟨[], [(k, rest.reverse ++ [c0])], [k], []⟩ : SFState K V)
      k v = _
    unfold sfComplete
    simp [lookupAssoc]
  rw [hall]
  constructor
  · simp
  · intro c hc
    simp only [List.append_nil, List.mem_map]
    refine ⟨c, ?_, rfl⟩
    rw [List.mem_append, List.mem_reverse]
    rcases List.mem_cons.mp hc with rfl | hcr
    · exact Or.inr (List.mem_singleton_self c)
    · exact Or.inl hcr

/-- Witness for C4: two concurrent callers for the key "marina", with
a concrete trace for the invariant half. -/
theorem singleflight_spec_spot :
    (((sfRun (sfInit String ℤ)
        [CacheEvent.arrive 1 "marina", CacheEvent.arrive 2 "marina",
         CacheEvent.complete "marina" 7]).inflight).map Prod.fst).Nodup ∧
    (sfRun (sfInit String ℤ)
        ([CacheEvent.arrive 1 "marina", CacheEvent.arrive 2 "marina"] ++
          [CacheEvent.complete "marina" 7])).upstream.count "marina" = 1 ∧
    (1, "marina", (7 : ℤ)) ∈
      (sfRun (sfInit String ℤ)
        ([CacheEvent.arrive 1 "marina", CacheEvent.arrive 2 "marina"] ++
          [CacheEvent.complete "marina" 7])).delivered := by
  have h := singleflight_spec "marina" (7 : ℤ) [1, 2]
    [CacheEvent.arrive 1 "marina", CacheEvent.arrive 2 "marina",
     CacheEvent.complete "marina" 7]
    (by decide)
  have hmap : ([1, 2] : List ℕ).map
      (fun c => CacheEvent.arrive (V := ℤ) c "marina") =
      [CacheEvent.arrive 1 "marina", CacheEvent.arrive 2 "marina"] := rfl
  refine ⟨h.1, ?_, ?_⟩
  · have h2 := h.2.1
    rw [hmap] at h2
    exact h2
  · have h3 := h.2.2 1 (by decide)
    rw [hmap] at h3
    exact h3

end LgndSim
